import Mathlib

/-!
Verification of the cross-compiler provisioning script
(`scripts/build_cross_compiler.py`).

The development shallowly embeds the script's pipeline: the cache-aware
downloader with SHA-512 verification (`_download_files`), the
marker-stamped archive extractor (`_extract_archive`), and the top-level
orchestration (`run`).  External collaborators (the `hashlib` digest, the
HTTP stream from `requests`, `tarfile`'s member list) are abstracted as
parameters of an `Env` record; the filesystem is an explicit state and
every observable action is recorded in an event trace.
-/

/-- A file's content, as its list of bytes. -/
abbrev Bytes := List Nat

/-- An absolute filesystem path, as its list of components from the root. -/
abbrev FsPath := List String

/-- Mirrors the frozen dataclass `FileDownloadInfo` of the script:
one manifest entry with a source URL, the expected SHA-512 hex digest,
and the name of the directory the archive extracts to. -/
structure FileDownloadInfo where
  url : String
  sha512_hexdigest : String
  extracted_subdir_name : String
deriving DecidableEq

/-- Filesystem state: regular files with their contents (an association
list in which the most recent binding for a path wins), plus the set of
existing directories. -/
structure FS where
  files : List (FsPath × Bytes)
  dirs : List FsPath
deriving DecidableEq

/-- `pathlib.Path.open("rb").read...`: the file's bytes, if it exists. -/
def FS.getFile (fs : FS) (p : FsPath) : Option Bytes :=
  fs.files.lookup p

/-- `pathlib.Path.is_file()`. -/
def FS.isFile (fs : FS) (p : FsPath) : Bool :=
  (fs.getFile p).isSome

/-- `pathlib.Path.is_dir()`. -/
def FS.isDir (fs : FS) (p : FsPath) : Bool :=
  fs.dirs.contains p

/-- `open("wb")` followed by writing `b`: (over)writes the file at `p`. -/
def FS.setFile (fs : FS) (p : FsPath) (b : Bytes) : FS :=
  { fs with files := (p, b) :: fs.files }

/-- Record a collection of directories as existing. -/
def FS.addDirs (fs : FS) (ds : List FsPath) : FS :=
  { fs with dirs := ds ++ fs.dirs }

/-- The nonempty prefixes of `p`: the path itself and all its ancestors.
`mkdir(parents=True)` creates all of them. -/
def dirsFor (p : FsPath) : List FsPath :=
  p.inits.filter (fun q => decide (q ≠ []))

/-- One archive member, as `tarfile` reports it: a regular file with its
content, or a directory. The member name is a slash-separated path
relative to the extraction destination (possibly containing `..`). -/
inductive TarMember where
  | file (name : String) (content : Bytes)
  | dir (name : String)
deriving DecidableEq

/-- The member name of a tar member. -/
def TarMember.name : TarMember → String
  | .file n _ => n
  | .dir n => n

/-- The member list of an archive. -/
abbrev Archive := List TarMember

/-- The external collaborators of the script, abstracted:
`hash` is `hashlib.new("sha512").update(...).hexdigest()` on a whole byte
stream; `network` is the chunk stream `requests.get(url).iter_content()`;
`readTar` is `tarfile.open` returning the member list (or `none` when the
bytes are not a readable archive); `cwd` is `pathlib.Path.cwd()`. -/
structure Env where
  hash : Bytes → String
  network : String → List Bytes
  readTar : Bytes → Option Archive
  cwd : FsPath

/-- Observable actions of a run, in order. -/
inductive Event where
  | log (message : String) (args : List String)
  | mkdirEv (p : FsPath)
  | readFileEv (p : FsPath)
  | writeFileEv (p : FsPath) (content : Bytes)
  | deleteFileEv (p : FsPath)
  | downloadEv (url : String)
  | extractEv (archiveFile : FsPath) (destDir : FsPath)
deriving DecidableEq

/-- Is the event a log line? -/
def Event.isLogEv : Event → Bool
  | .log _ _ => true
  | _ => false

/-- Is the event a network download (`requests.get`)? -/
def Event.isDownloadEv : Event → Bool
  | .downloadEv _ => true
  | _ => false

/-- Is the event an archive extraction (`tarfile.extractall`)? -/
def Event.isExtractEv : Event → Bool
  | .extractEv _ _ => true
  | _ => false

/-- Is the event a file deletion?  The script never deletes a file, so no
code path emits this event; it is part of the observation vocabulary so
that "the stale file is not deleted" is expressible. -/
def Event.isDeleteEv : Event → Bool
  | .deleteFileEv _ => true
  | _ => false

/-- Is the event a file write? -/
def Event.isWriteEv : Event → Bool
  | .writeFileEv _ _ => true
  | _ => false

/-- The exceptions the script can raise while running. -/
inductive RunError where
  | sha512Mismatch (url : String) (expectedDigest : String) (actualDigest : String)
  | archiveExtract (archiveFile : FsPath) (destDir : FsPath) (extractedSubdirName : String)
  | keyError (key : String)
  | tarOpenError (archiveFile : FsPath)
deriving DecidableEq

deriving instance DecidableEq for Except

/-- The outcome of a (possibly failing) stateful step: its result, the
filesystem it leaves behind (errors keep their partial effects, as Python
exceptions do), and the trace of observable events it performed. -/
structure Outcome (α : Type) where
  result : Except RunError α
  fs : FS
  trace : List Event

/-- Sequencing of steps: an error stops the run but keeps the state and
trace accumulated so far. -/
def Outcome.bind {α β : Type} (o : Outcome α) (f : α → FS → Outcome β) : Outcome β :=
  match o.result with
  | .error e => ⟨.error e, o.fs, o.trace⟩
  | .ok a =>
      let r := f a o.fs
      ⟨r.result, r.fs, o.trace ++ r.trace⟩

/-- Is a byte a UTF-8 continuation byte? -/
def contByte (b : Nat) : Bool :=
  decide (128 ≤ b) && decide (b < 192)

/-- Decoding of one UTF-8 sequence whose lead byte is `b` and whose
following bytes are `rest`: the decoded character, and how many bytes of
`rest` the sequence consumed beyond the lead byte.  Invalid or truncated
sequences yield the U+FFFD replacement character. -/
def decodeUtf8Step (b : Nat) (rest : Bytes) : Char × Nat :=
  if b < 128 then (Char.ofNat b, 0)
  else if b < 194 then (Char.ofNat 0xFFFD, 0)
  else if b < 224 then
    match rest with
    | b1 :: _ =>
        if contByte b1 then (Char.ofNat ((b - 192) * 64 + (b1 - 128)), 1)
        else (Char.ofNat 0xFFFD, 0)
    | [] => (Char.ofNat 0xFFFD, 0)
  else if b < 240 then
    match rest with
    | b1 :: b2 :: _ =>
        if contByte b1 && contByte b2 then
          (Char.ofNat ((b - 224) * 4096 + (b1 - 128) * 64 + (b2 - 128)), 2)
        else (Char.ofNat 0xFFFD, 0)
    | _ => (Char.ofNat 0xFFFD, 0)
  else
    match rest with
    | b1 :: b2 :: b3 :: _ =>
        if contByte b1 && contByte b2 && contByte b3 then
          (Char.ofNat ((b - 240) * 262144 + (b1 - 128) * 4096 + (b2 - 128) * 64 + (b3 - 128)), 3)
        else (Char.ofNat 0xFFFD, 0)
    | _ => (Char.ofNat 0xFFFD, 0)

/-- Fuel-driven UTF-8 decoding loop.  The fuel is an upper bound on the
number of bytes left (each step consumes at least the lead byte, so
starting the fuel at the byte count makes the zero-fuel arm
unreachable); it only makes the recursion structural. -/
def decodeUtf8FuelAux : Nat → Bytes → List Char
  | _, [] => []
  | 0, _ :: _ => []
  | fuel + 1, b :: rest =>
      let s := decodeUtf8Step b rest
      s.1 :: decodeUtf8FuelAux fuel (rest.drop s.2)

/-- Models CPython's `bytes.decode("utf8", errors="replace")`: valid
UTF-8 sequences decode to their scalar value, anything else produces
U+FFFD replacement characters.  (For invalid multi-byte sequences the
exact number of replacement characters may differ from CPython's
maximal-subpart rule; no digest the script compares is ever non-ASCII,
so only the ASCII behaviour is load-bearing.) -/
def decodeUtf8ReplaceAux (bs : Bytes) : List Char :=
  decodeUtf8FuelAux bs.length bs

/-- `bytes.decode("utf8", errors="replace")` as a `String`. -/
def decodeUtf8Replace (b : Bytes) : String :=
  String.mk (decodeUtf8ReplaceAux b)

/-- UTF-8 encoding of one character. -/
def encodeUtf8Char (c : Char) : Bytes :=
  let n := c.toNat
  if n < 128 then [n]
  else if n < 2048 then [192 + n / 64, 128 + n % 64]
  else if n < 65536 then [224 + n / 4096, 128 + (n / 64) % 64, 128 + n % 64]
  else [240 + n / 262144, 128 + (n / 4096) % 64, 128 + (n / 64) % 64, 128 + n % 64]

/-- `str.encode("utf8")`. -/
def encodeUtf8 (s : String) : Bytes :=
  (s.data.map encodeUtf8Char).flatten

/-- The string consists of ASCII characters only. -/
def allAscii (s : String) : Prop :=
  ∀ c ∈ s.data, c.toNat < 128

/-- Split a character list on a separator character, Python
`str.split(sep)` style: `splitOnChar sep "a//b".data` is
`["a", "", "b"].map String.data`. -/
def splitOnChar (sep : Char) : List Char → List (List Char)
  | [] => [[]]
  | c :: rest =>
      let r := splitOnChar sep rest
      if c = sep then [] :: r
      else
        match r with
        | f :: fs => (c :: f) :: fs
        | [] => [[c]]

/-- The last path segment of a URL: models
`pathlib.PurePosixPath(urllib.parse.urlparse(url).path).name` for the
plain `scheme://host/a/b/c` URLs of the manifest (no query, no
fragment, no trailing slash). -/
def urlFileName (url : String) : String :=
  String.mk (((splitOnChar (Char.ofNat 47) url.data).getLastD []))

/-- `_download_files`, body of the `for` loop for one manifest entry:
derive the cache path from the URL's last segment, verify an existing
file's SHA-512 digest and serve it as a cache hit when it matches,
otherwise stream-download the URL to the cache path while hashing, and
raise `Sha512MismatchError` when the fresh digest mismatches
(lines 87-147 of the script). `doDownload` is the part after the cache
check (lines 124-147). -/
def doDownload (env : Env) (destFile : FsPath) (info : FileDownloadInfo) (fs : FS)
    (pre : List Event) : Outcome FsPath :=
  let chunks := env.network info.url
  let content := chunks.flatten
  let fs2 := fs.setFile destFile content
  let trace := pre ++
    [Event.log "Downloading" [info.url], Event.downloadEv info.url,
     Event.writeFileEv destFile content]
  let sha512_hexdigest := env.hash content
  if sha512_hexdigest = info.sha512_hexdigest then ⟨.ok destFile, fs2, trace⟩
  else
    ⟨.error (.sha512Mismatch info.url info.sha512_hexdigest sha512_hexdigest), fs2, trace⟩

/-- See `doDownload`: the cache-checking part (lines 93-123). -/
def downloadOne (env : Env) (downloadDir : FsPath) (info : FileDownloadInfo) (fs : FS) :
    Outcome FsPath :=
  let destFile := downloadDir ++ [urlFileName info.url]
  match fs.getFile destFile with
  | some content =>
      let sha512_hexdigest := env.hash content
      if sha512_hexdigest = info.sha512_hexdigest then
        ⟨.ok destFile, fs,
         [Event.readFileEv destFile, Event.log "skipping download" [info.url]]⟩
      else
        doDownload env destFile info fs
          [Event.readFileEv destFile,
           Event.log "hash verification failed; file will be re-downloaded"
             [sha512_hexdigest, info.sha512_hexdigest]]
  | none => doDownload env destFile info fs []

/-- The whole `for` loop of `_download_files`, over a list of manifest
entries in iteration order, accumulating `_downloaded_file_by_id`. -/
def downloadLoop (env : Env) (downloadDir : FsPath) :
    List (String × FileDownloadInfo) → FS → Outcome (List (String × FsPath))
  | [], fs => ⟨.ok [], fs, []⟩
  | (downloadId, info) :: rest, fs =>
      Outcome.bind (downloadOne env downloadDir info fs) (fun p fs2 =>
        Outcome.bind (downloadLoop env downloadDir rest fs2) (fun m fs3 =>
          ⟨.ok ((downloadId, p) :: m), fs3, []⟩))

/-- The fixed manifest `_file_download_infos`, in Python dict insertion
order. -/
def binutilsInfo : FileDownloadInfo :=
  { extracted_subdir_name := "binutils-2.41",
    url := "https://ftp.gnu.org/gnu/binutils/binutils-2.41.tar.bz2",
    sha512_hexdigest := "8c4303145262e84598d828e1a6465ddbf5a8ff757efe3fd981948854f32b311afe5b154be3966e50d85cf5d25217564c1f519d197165aac8e82efcadc9e1e47c" }

/-- Manifest entry for gcc. -/
def gccInfo : FileDownloadInfo :=
  { extracted_subdir_name := "gcc-13.2.0",
    url := "https://ftp.gnu.org/gnu/gcc/gcc-13.2.0/gcc-13.2.0.tar.gz",
    sha512_hexdigest := "41c8c77ac5c3f77de639c2913a8e4ff424d48858c9575fc318861209467828ccb7e6e5fe3618b42bf3d745be8c7ab4b4e50e424155e691816fa99951a2b870b9" }

/-- Manifest entry for mpfr. -/
def mpfrInfo : FileDownloadInfo :=
  { url := "https://ftp.gnu.org/gnu/mpfr/mpfr-4.2.1.tar.gz",
    extracted_subdir_name := "mpfr-4.2.1",
    sha512_hexdigest := "858b7c2c3018e4099a7cd6d9d38eca7c46af90fa2c307d9417518027f07b6c43c51152c60b56359a53e7101a5d0629753f3eb5c54e17574742c374830832fcfe" }

/-- Manifest entry for gmp. -/
def gmpInfo : FileDownloadInfo :=
  { extracted_subdir_name := "gmp-6.3.0",
    url := "https://ftp.gnu.org/gnu/gmp/gmp-6.3.0.tar.gz",
    sha512_hexdigest := "44672c7568b007b4dffc5544374b9169004dfbe7ff79712302f15aa95d46229e3a057266a0421aadf95ab8a4af13ce4090d8ea39615d50c5064b4703a53fe3b0" }

/-- Manifest entry for mpc. -/
def mpcInfo : FileDownloadInfo :=
  { extracted_subdir_name := "mpc-1.3.1",
    url := "https://ftp.gnu.org/gnu/mpc/mpc-1.3.1.tar.gz",
    sha512_hexdigest := "4bab4ef6076f8c5dfdc99d810b51108ced61ea2942ba0c1c932d624360a5473df20d32b300fc76f2ba4aa2a97e1f275c9fd494a1ba9f07c4cb2ad7ceaeb1ae97" }

/-- `_file_download_infos()` as an ordered association list (Python dicts
iterate in insertion order). -/
def fileDownloadInfos : List (String × FileDownloadInfo) :=
  [("binutils", binutilsInfo), ("gcc", gccInfo), ("mpfr", mpfrInfo),
   ("gmp", gmpInfo), ("mpc", mpcInfo)]

/-- Resolve the slash-separated components of a tar member name against
a base path, the way the OS resolves the joined path during
`extractall`: `..` pops a component, `.` and empty components are
ignored. -/
def resolveRel : FsPath → List String → FsPath
  | acc, [] => acc
  | acc, c :: rest =>
      if c = ".." then resolveRel acc.dropLast rest
      else if c = "." then resolveRel acc rest
      else if c = "" then resolveRel acc rest
      else resolveRel (acc ++ [c]) rest

/-- The on-disk path a tar member is written to by
`tarfile.extractall(dest_dir)` with no `filter` argument (the script's
call, line 196): the member name joined onto `destDir` and resolved,
with no sanitization of `..` components; a leading `/` makes the member
name absolute. -/
def memberPath (destDir : FsPath) (name : String) : FsPath :=
  let fields := (splitOnChar (Char.ofNat 47) name.data).map String.mk
  match name.data with
  | c :: _ =>
      if c = Char.ofNat 47 then resolveRel [] fields
      else resolveRel destDir fields
  | [] => resolveRel destDir fields

/-- `tarfile.extractall(destDir)`: write every member at its resolved
path (creating the implied parent directories), in member order.
Returns the updated filesystem and the per-member events. -/
def extractAllFrom (destDir : FsPath) : Archive → FS → FS × List Event
  | [], fs => (fs, [])
  | TarMember.file name content :: rest, fs =>
      let p := memberPath destDir name
      let fs2 := (fs.addDirs (dirsFor p.dropLast)).setFile p content
      let r := extractAllFrom destDir rest fs2
      (r.1, Event.writeFileEv p content :: r.2)
  | TarMember.dir name :: rest, fs =>
      let p := memberPath destDir name
      let fs2 := fs.addDirs (dirsFor p)
      let r := extractAllFrom destDir rest fs2
      (r.1, Event.mkdirEv p :: r.2)

/-- `_extract_archive` after the stamp-file check decided to extract
(lines 191-204): open the archive, extract everything into `destDir`,
fail with `ArchiveExtractError` when `destDir/extracted_subdir_name` was
not created, and finally write the stamp file with the UTF-8 encoding of
the expected digest. -/
def extractProper (env : Env) (archiveFile destDir : FsPath) (info : FileDownloadInfo)
    (fs : FS) (pre : List Event) : Outcome Unit :=
  match fs.getFile archiveFile with
  | none => ⟨.error (.tarOpenError archiveFile), fs, pre ++ [Event.readFileEv archiveFile]⟩
  | some archiveBytes =>
      match env.readTar archiveBytes with
      | none =>
          ⟨.error (.tarOpenError archiveFile), fs, pre ++ [Event.readFileEv archiveFile]⟩
      | some members =>
          let r := extractAllFrom destDir members fs
          let trace := pre ++
            [Event.log "Extracting" [], Event.readFileEv archiveFile,
             Event.extractEv archiveFile destDir] ++ r.2
          let extracted_subdir := destDir ++ [info.extracted_subdir_name]
          if r.1.isDir extracted_subdir then
            let stamp_file :=
              destDir ++ [info.extracted_subdir_name ++ ".extract.stamp.txt"]
            let stampContent := encodeUtf8 info.sha512_hexdigest
            ⟨.ok (), r.1.setFile stamp_file stampContent,
             trace ++ [Event.writeFileEv stamp_file stampContent]⟩
          else
            ⟨.error (.archiveExtract archiveFile destDir info.extracted_subdir_name),
             r.1, trace⟩

/-- `_extract_archive` (lines 167-204): read up to
`4 * len(sha512_hexdigest)` bytes of the stamp file; when that much
decodes (UTF-8 with replacement) to exactly the expected digest, skip
extraction and return; otherwise (stamp missing, unreadable or stale)
do the full extraction. -/
def extractArchive (env : Env) (archiveFile destDir : FsPath) (info : FileDownloadInfo)
    (fs : FS) : Outcome Unit :=
  let stamp_file := destDir ++ [info.extracted_subdir_name ++ ".extract.stamp.txt"]
  match fs.getFile stamp_file with
  | some stampFileBytes =>
      let stampBytes := stampFileBytes.take (4 * info.sha512_hexdigest.length)
      if decodeUtf8Replace stampBytes = info.sha512_hexdigest then
        ⟨.ok (), fs,
         [Event.readFileEv stamp_file, Event.log "Skipping extracting" []]⟩
      else
        extractProper env archiveFile destDir info fs [Event.readFileEv stamp_file]
  | none =>
      extractProper env archiveFile destDir info fs
        [Event.readFileEv stamp_file,
         Event.log "Error reading stamp file; re-extracting" []]

/-- `CrossCompilerBuilder.__init__`'s stored configuration. -/
structure CrossCompilerBuilder where
  dest_dir : FsPath
  build_dir : Option FsPath
  download_dir : Option FsPath
deriving DecidableEq

/-- `effective_build_dir`. -/
def effectiveBuildDir (env : Env) (b : CrossCompilerBuilder) : FsPath :=
  b.build_dir.getD env.cwd

/-- `effective_download_dir`. -/
def effectiveDownloadDir (env : Env) (b : CrossCompilerBuilder) : FsPath :=
  b.download_dir.getD (effectiveBuildDir env b)

/-- Render a path for a log argument. -/
def pathToString (p : FsPath) : String :=
  String.intercalate "/" p

/-- `_create_directory_if_not_exists` (lines 75-79). -/
def createDirIfNotExists (fs : FS) (dirPath : Option FsPath) : FS × List Event :=
  match dirPath with
  | none => (fs, [])
  | some p =>
      if fs.isDir p then (fs, [])
      else
        (fs.addDirs (dirsFor p),
         [Event.log "Creating directory" [pathToString p], Event.mkdirEv p])

/-- `_build_binutils` (lines 158-165): look the binutils archive up in
`_downloaded_file_by_id` and extract it into the effective build
directory.  A missing key would be a Python `KeyError`. -/
def buildBinutils (env : Env) (b : CrossCompilerBuilder)
    (downloaded : List (String × FsPath)) (fs : FS) : Outcome Unit :=
  match downloaded.lookup "binutils" with
  | none => ⟨.error (.keyError "binutils"), fs, []⟩
  | some archiveFile =>
      extractArchive env archiveFile (effectiveBuildDir env b) binutilsInfo fs

/-- `CrossCompilerBuilder.run` (lines 64-73): log, create the build and
download directories when given, download every manifest entry, then
build (extract) binutils.  The two summary-counter log lines of
`_download_files` are determined by the trace and are not modelled
separately. -/
def CrossCompilerBuilder.run (env : Env) (b : CrossCompilerBuilder) (fs : FS) :
    Outcome Unit :=
  let r1 := createDirIfNotExists fs b.build_dir
  let r2 := createDirIfNotExists r1.1 b.download_dir
  Outcome.bind
    ⟨.ok (), r2.1,
     Event.log "Building a cross compiler in to install in"
       [pathToString b.dest_dir, pathToString (effectiveBuildDir env b)] ::
       (r1.2 ++ r2.2)⟩
    (fun _ fs2 =>
      Outcome.bind (downloadLoop env (effectiveDownloadDir env b) fileDownloadInfos fs2)
        (fun downloaded fs3 => buildBinutils env b downloaded fs3))

/-- Concrete digest-assigning hash function for witnesses: content `[i]`
hashes to the digest of the i-th manifest entry. -/
def hashW : Bytes → String := fun b =>
  if b = [0] then binutilsInfo.sha512_hexdigest
  else if b = [1] then gccInfo.sha512_hexdigest
  else if b = [2] then mpfrInfo.sha512_hexdigest
  else if b = [3] then gmpInfo.sha512_hexdigest
  else if b = [4] then mpcInfo.sha512_hexdigest
  else "0000"

/-- Concrete environment for witnesses. -/
def envW : Env :=
  { hash := hashW, network := fun _ => [[9]], readTar := fun _ => none, cwd := ["cwd"] }

/-- Concrete filesystem for the cache-hit witness. -/
def fsW : FS :=
  ⟨[(["dl", "binutils-2.41.tar.bz2"], [0])], []⟩

/-- Environment for the self-healing witness: the network serves bytes
`[0]`, which hash to the binutils digest. -/
def envW5 : Env :=
  { hash := hashW, network := fun _ => [[0]], readTar := fun _ => none, cwd := ["cwd"] }

/-- Filesystem for the self-healing witness: a stale cache file. -/
def fsW5 : FS :=
  ⟨[(["dl", "binutils-2.41.tar.bz2"], [7])], []⟩

/-- Builder configuration used by the run-level witnesses. -/
def builderW : CrossCompilerBuilder :=
  { dest_dir := ["dest"], build_dir := some ["bld"], download_dir := some ["dl"] }

/-- The empty filesystem. -/
def fsEmpty : FS := ⟨[], []⟩

/-- Filesystem after a successful prior run, for the idempotence
witness: all five cache files (hashing, under `hashW`, to their manifest
digests) and the binutils extraction marker. -/
def fsW1 : FS :=
  ⟨[(["dl", "binutils-2.41.tar.bz2"], [0]),
    (["dl", "gcc-13.2.0.tar.gz"], [1]),
    (["dl", "mpfr-4.2.1.tar.gz"], [2]),
    (["dl", "gmp-6.3.0.tar.gz"], [3]),
    (["dl", "mpc-1.3.1.tar.gz"], [4]),
    (["bld", "binutils-2.41.extract.stamp.txt"],
      encodeUtf8 binutilsInfo.sha512_hexdigest)],
   [["bld"], ["dl"]]⟩

/-- Environment whose archive contains only a stray file, producing no
expected subdirectory. -/
def envW4 : Env :=
  { hash := hashW, network := fun _ => [[9]],
    readTar := fun _ => some [TarMember.file "README" [1]], cwd := ["cwd"] }

/-- Filesystem holding the binutils archive, no stamp. -/
def fsW4 : FS :=
  ⟨[(["dl", "binutils-2.41.tar.bz2"], [0])], [["bld"], ["dl"]]⟩

/-- Environment whose archive holds exactly the expected top-level
directory. -/
def envW6 : Env :=
  { hash := hashW, network := fun _ => [[9]],
    readTar := fun _ => some [TarMember.dir "binutils-2.41"], cwd := ["cwd"] }

/-- Filesystem with a stale one-byte marker (content "X") and the
binutils archive. -/
def fsW6 : FS :=
  ⟨[(["dl", "binutils-2.41.tar.bz2"], [0]),
    (["bld", "binutils-2.41.extract.stamp.txt"], [88])],
   [["bld"], ["dl"]]⟩

/-- Filesystem with a marker holding the correct digest plus a trailing
newline, and the binutils archive. -/
def fsW9 : FS :=
  ⟨[(["dl", "binutils-2.41.tar.bz2"], [0]),
    (["bld", "binutils-2.41.extract.stamp.txt"],
      encodeUtf8 binutilsInfo.sha512_hexdigest ++ [10])],
   [["bld"], ["dl"]]⟩

/-- Environment whose archive contains a member escaping the
destination via `..`, next to the expected top-level directory. -/
def envW3 : Env :=
  { hash := hashW, network := fun _ => [[9]],
    readTar := fun _ => some
      [TarMember.file "../evil.txt" [7], TarMember.dir "binutils-2.41"],
    cwd := ["cwd"] }

/-- Filesystem with the binutils archive downloaded, no stamp. -/
def fsW3 : FS :=
  ⟨[(["home", "dl", "binutils-2.41.tar.bz2"], [0])], [["home", "bld"], ["home", "dl"]]⟩

/-- ASCII lower-casing of one character. -/
def asciiLowerChar (c : Char) : Char :=
  if 65 ≤ c.toNat ∧ c.toNat ≤ 90 then Char.ofNat (c.toNat + 32) else c

/-- ASCII lower-casing of a string, to express "equal up to letter
case". -/
def asciiLower (s : String) : String :=
  String.mk (s.data.map asciiLowerChar)

/-- Manifest entry whose expected digest is written in upper-case hex. -/
def infoU : FileDownloadInfo :=
  { url := "https://host/pkg/f8.tar.gz", sha512_hexdigest := "AB",
    extracted_subdir_name := "f8" }

/-- Environment whose hash function yields the lower-case spelling of
that digest for every content. -/
def envW8 : Env :=
  { hash := fun _ => "ab", network := fun _ => [[1]], readTar := fun _ => none,
    cwd := ["cwd"] }

/-- Cache holding a file for `infoU` whose content hashes (to the
lower-case digest). -/
def fsW8 : FS := ⟨[(["dl", "f8.tar.gz"], [5])], []⟩

theorem char_ofNat_toNat (c : Char) : Char.ofNat c.toNat = c := by
  have h : c.toNat.isValidChar := c.valid
  apply Char.eq_of_val_eq
  show (Char.ofNat c.toNat).val = c.val
  unfold Char.ofNat
  rw [dif_pos h]
  apply UInt32.eq_of_toBitVec_eq
  apply BitVec.eq_of_toNat_eq
  rfl

theorem decodeAux_nil : decodeUtf8ReplaceAux [] = [] := rfl

theorem decodeAux_cons_ascii (b : Nat) (rest : Bytes) (h : b < 128) :
    decodeUtf8ReplaceAux (b :: rest) = Char.ofNat b :: decodeUtf8ReplaceAux rest := by
  show decodeUtf8FuelAux (rest.length + 1) (b :: rest) = _
  rw [decodeUtf8FuelAux]
  simp only [decodeUtf8Step, if_pos h, List.drop_zero]
  rfl

theorem decodeAux_encode_ascii (l : List Char) (h : ∀ c ∈ l, c.toNat < 128) :
    decodeUtf8ReplaceAux ((l.map encodeUtf8Char).flatten) = l := by
  induction l with
  | nil => exact decodeAux_nil
  | cons c rest ih =>
      have hc : c.toNat < 128 := h c (List.mem_cons_self c rest)
      have henc : encodeUtf8Char c = [c.toNat] := by
        unfold encodeUtf8Char
        rw [if_pos hc]
      rw [List.map_cons, henc, List.flatten_cons, List.singleton_append]
      rw [decodeAux_cons_ascii c.toNat _ hc]
      rw [char_ofNat_toNat, ih (fun d hd => h d (List.mem_cons_of_mem c hd))]

theorem FS.getFile_setFile_self (fs : FS) (p : FsPath) (b : Bytes) :
    (fs.setFile p b).getFile p = some b := by
  simp [FS.setFile, FS.getFile, List.lookup_cons]

theorem FS.getFile_setFile_ne (fs : FS) (p q : FsPath) (b : Bytes) (h : q ≠ p) :
    (fs.setFile p b).getFile q = fs.getFile q := by
  simp only [FS.setFile, FS.getFile, List.lookup_cons]
  rw [show (q == p) = false from beq_eq_false_iff_ne.mpr h]

theorem FS.getFile_addDirs (fs : FS) (ds : List FsPath) (p : FsPath) :
    (fs.addDirs ds).getFile p = fs.getFile p := rfl

theorem createDirIfNotExists_getFile (fs : FS) (d : Option FsPath) (p : FsPath) :
    (createDirIfNotExists fs d).1.getFile p = fs.getFile p := by
  unfold createDirIfNotExists
  match d with
  | none => rfl
  | some q =>
      simp only []
      split
      case isTrue => rfl
      case isFalse => rfl

theorem createDirIfNotExists_events (fs : FS) (d : Option FsPath) :
    ∀ e ∈ (createDirIfNotExists fs d).2,
      e.isDownloadEv = false ∧ e.isExtractEv = false ∧ e.isDeleteEv = false ∧
      e.isWriteEv = false := by
  unfold createDirIfNotExists
  match d with
  | none => intro e he; cases he
  | some q =>
      simp only []
      split
      case isTrue => intro e he; cases he
      case isFalse =>
          intro e he
          simp only [List.mem_cons, List.mem_singleton] at he
          rcases he with rfl | rfl | h
          · exact ⟨rfl, rfl, rfl, rfl⟩
          · exact ⟨rfl, rfl, rfl, rfl⟩
          · cases h

theorem downloadOne_cacheHit (env : Env) (downloadDir : FsPath) (info : FileDownloadInfo)
    (fs : FS) (c : Bytes)
    (hfile : fs.getFile (downloadDir ++ [urlFileName info.url]) = some c)
    (hhash : env.hash c = info.sha512_hexdigest) :
    downloadOne env downloadDir info fs =
      ⟨.ok (downloadDir ++ [urlFileName info.url]), fs,
       [Event.readFileEv (downloadDir ++ [urlFileName info.url]),
        Event.log "skipping download" [info.url]]⟩ := by
  simp only [downloadOne]
  rw [hfile]
  simp [hhash]

theorem doDownload_netOk (env : Env) (destFile : FsPath) (info : FileDownloadInfo)
    (fs : FS) (pre : List Event)
    (hnet : env.hash (env.network info.url).flatten = info.sha512_hexdigest) :
    doDownload env destFile info fs pre =
      ⟨.ok destFile, fs.setFile destFile (env.network info.url).flatten,
       pre ++ [Event.log "Downloading" [info.url], Event.downloadEv info.url,
               Event.writeFileEv destFile (env.network info.url).flatten]⟩ := by
  simp only [doDownload]
  simp [hnet]

theorem doDownload_mismatch (env : Env) (destFile : FsPath) (info : FileDownloadInfo)
    (fs : FS) (pre : List Event)
    (hnet : env.hash (env.network info.url).flatten ≠ info.sha512_hexdigest) :
    doDownload env destFile info fs pre =
      ⟨.error (.sha512Mismatch info.url info.sha512_hexdigest
                 (env.hash (env.network info.url).flatten)),
       fs.setFile destFile (env.network info.url).flatten,
       pre ++ [Event.log "Downloading" [info.url], Event.downloadEv info.url,
               Event.writeFileEv destFile (env.network info.url).flatten]⟩ := by
  simp only [doDownload]
  simp [hnet]

theorem downloadOne_ok_of_netOk (env : Env) (downloadDir : FsPath)
    (info : FileDownloadInfo) (fs : FS)
    (hnet : env.hash (env.network info.url).flatten = info.sha512_hexdigest) :
    (downloadOne env downloadDir info fs).result =
      .ok (downloadDir ++ [urlFileName info.url]) := by
  simp only [downloadOne]
  cases hc : fs.getFile (downloadDir ++ [urlFileName info.url]) with
  | some c =>
      dsimp only
      split
      · rfl
      · rw [doDownload_netOk env _ info fs _ hnet]
  | none =>
      dsimp only
      rw [doDownload_netOk env _ info fs _ hnet]

theorem downloadOne_frame (env : Env) (downloadDir : FsPath) (info : FileDownloadInfo)
    (fs : FS) (q : FsPath) (h : q ≠ downloadDir ++ [urlFileName info.url]) :
    (downloadOne env downloadDir info fs).fs.getFile q = fs.getFile q := by
  simp only [downloadOne, doDownload]
  cases hc : fs.getFile (downloadDir ++ [urlFileName info.url]) with
  | some c =>
      dsimp only
      split
      · rfl
      · split
        · exact FS.getFile_setFile_ne fs _ q _ h
        · exact FS.getFile_setFile_ne fs _ q _ h
  | none =>
      dsimp only
      split
      · exact FS.getFile_setFile_ne fs _ q _ h
      · exact FS.getFile_setFile_ne fs _ q _ h

theorem downloadOne_trace_all (env : Env) (downloadDir : FsPath)
    (info : FileDownloadInfo) (fs : FS) :
    ((downloadOne env downloadDir info fs).trace.all
      (fun e => !e.isExtractEv && !e.isDeleteEv)) = true := by
  simp only [downloadOne, doDownload]
  cases hc : fs.getFile (downloadDir ++ [urlFileName info.url]) with
  | some c =>
      dsimp only
      split
      · rfl
      · split <;> rfl
  | none =>
      dsimp only
      split <;> rfl

theorem downloadLoop_allCacheHit (env : Env) (ddir : FsPath)
    (entries : List (String × FileDownloadInfo)) (fs : FS)
    (h : ∀ e ∈ entries, ∃ c, fs.getFile (ddir ++ [urlFileName e.2.url]) = some c ∧
           env.hash c = e.2.sha512_hexdigest) :
    downloadLoop env ddir entries fs =
      ⟨.ok (entries.map fun e => (e.1, ddir ++ [urlFileName e.2.url])), fs,
       entries.flatMap fun e =>
         [Event.readFileEv (ddir ++ [urlFileName e.2.url]),
          Event.log "skipping download" [e.2.url]]⟩ := by
  induction entries with
  | nil => rfl
  | cons hd rest ih =>
      obtain ⟨c, hc, hh⟩ := h hd (List.mem_cons_self hd rest)
      obtain ⟨hdId, hdInfo⟩ := hd
      rw [downloadLoop]
      rw [downloadOne_cacheHit env ddir hdInfo fs c hc hh]
      simp only [Outcome.bind]
      rw [ih (fun e he => h e (List.mem_cons_of_mem _ he))]
      simp

theorem Outcome.bind_error {α β : Type} (o : Outcome α) (f : α → FS → Outcome β)
    (e : RunError) (h : o.result = .error e) :
    Outcome.bind o f = ⟨.error e, o.fs, o.trace⟩ := by
  unfold Outcome.bind
  rw [h]

theorem Outcome.bind_ok {α β : Type} (o : Outcome α) (f : α → FS → Outcome β) (a : α)
    (h : o.result = .ok a) :
    Outcome.bind o f =
      ⟨(f a o.fs).result, (f a o.fs).fs, o.trace ++ (f a o.fs).trace⟩ := by
  unfold Outcome.bind
  rw [h]

theorem downloadOne_mismatch (env : Env) (ddir : FsPath) (info : FileDownloadInfo)
    (fs : FS)
    (hcache : ∀ c, fs.getFile (ddir ++ [urlFileName info.url]) = some c →
       env.hash c ≠ info.sha512_hexdigest)
    (hnet : env.hash (env.network info.url).flatten ≠ info.sha512_hexdigest) :
    (downloadOne env ddir info fs).result =
      .error (.sha512Mismatch info.url info.sha512_hexdigest
        (env.hash (env.network info.url).flatten))
    ∧ (downloadOne env ddir info fs).fs =
        fs.setFile (ddir ++ [urlFileName info.url]) (env.network info.url).flatten := by
  simp only [downloadOne]
  cases hc : fs.getFile (ddir ++ [urlFileName info.url]) with
  | some c =>
      dsimp only
      rw [if_neg (hcache c hc)]
      rw [doDownload_mismatch env _ info fs _ hnet]
      exact ⟨rfl, rfl⟩
  | none =>
      dsimp only
      rw [doDownload_mismatch env _ info fs _ hnet]
      exact ⟨rfl, rfl⟩

theorem downloadLoop_mismatch (env : Env) (ddir : FsPath)
    (pre rest : List (String × FileDownloadInfo)) (kid : String)
    (kinfo : FileDownloadInfo) (fs : FS)
    (hok : ∀ e ∈ pre, env.hash (env.network e.2.url).flatten = e.2.sha512_hexdigest)
    (hnames : ∀ e ∈ pre, urlFileName e.2.url ≠ urlFileName kinfo.url)
    (hcache : ∀ c, fs.getFile (ddir ++ [urlFileName kinfo.url]) = some c →
       env.hash c ≠ kinfo.sha512_hexdigest)
    (hnet : env.hash (env.network kinfo.url).flatten ≠ kinfo.sha512_hexdigest) :
    (downloadLoop env ddir (pre ++ (kid, kinfo) :: rest) fs).result =
      .error (.sha512Mismatch kinfo.url kinfo.sha512_hexdigest
        (env.hash (env.network kinfo.url).flatten))
    ∧ (downloadLoop env ddir (pre ++ (kid, kinfo) :: rest) fs).fs.getFile
        (ddir ++ [urlFileName kinfo.url]) = some (env.network kinfo.url).flatten
    ∧ ((downloadLoop env ddir (pre ++ (kid, kinfo) :: rest) fs).trace.all
        (fun e => !e.isExtractEv && !e.isDeleteEv)) = true := by
  induction pre generalizing fs with
  | nil =>
      obtain ⟨hres, hfs⟩ := downloadOne_mismatch env ddir kinfo fs hcache hnet
      rw [List.nil_append, downloadLoop]
      rw [Outcome.bind_error _ _ _ hres]
      refine ⟨rfl, ?_, downloadOne_trace_all env ddir kinfo fs⟩
      rw [hfs]
      exact FS.getFile_setFile_self fs _ _
  | cons hd pre2 ih =>
      obtain ⟨hdId, hdInfo⟩ := hd
      rw [List.cons_append, downloadLoop]
      rw [Outcome.bind_ok _ _ _
        (downloadOne_ok_of_netOk env ddir hdInfo fs
          (hok (hdId, hdInfo) (List.mem_cons_self _ _)))]
      have hframe : (downloadOne env ddir hdInfo fs).fs.getFile
          (ddir ++ [urlFileName kinfo.url]) = fs.getFile (ddir ++ [urlFileName kinfo.url]) := by
        apply downloadOne_frame
        intro hEq
        have hlast : urlFileName kinfo.url = urlFileName hdInfo.url := by
          have := List.append_cancel_left hEq
          simpa using this
        exact hnames (hdId, hdInfo) (List.mem_cons_self _ _) hlast.symm
      have ih2 := ih ((downloadOne env ddir hdInfo fs).fs)
        (fun e he => hok e (List.mem_cons_of_mem _ he))
        (fun e he => hnames e (List.mem_cons_of_mem _ he))
        (fun c hcEq => hcache c (hframe ▸ hcEq))
      obtain ⟨ihres, ihfs, ihtr⟩ := ih2
      rw [Outcome.bind_error _ _ _ ihres]
      refine ⟨rfl, ihfs, ?_⟩
      simp only [List.all_append]
      rw [downloadOne_trace_all, ihtr]
      rfl

theorem extractArchive_stampHit (env : Env) (archiveFile destDir : FsPath)
    (info : FileDownloadInfo) (fs : FS) (c : Bytes)
    (hstamp : fs.getFile (destDir ++ [info.extracted_subdir_name ++ ".extract.stamp.txt"])
      = some c)
    (hdec : decodeUtf8Replace (c.take (4 * info.sha512_hexdigest.length))
      = info.sha512_hexdigest) :
    extractArchive env archiveFile destDir info fs =
      ⟨.ok (), fs,
       [Event.readFileEv (destDir ++ [info.extracted_subdir_name ++ ".extract.stamp.txt"]),
        Event.log "Skipping extracting" []]⟩ := by
  simp only [extractArchive]
  rw [hstamp]
  simp [hdec]

theorem extractArchive_stampStale (env : Env) (archiveFile destDir : FsPath)
    (info : FileDownloadInfo) (fs : FS) (c : Bytes)
    (hstamp : fs.getFile (destDir ++ [info.extracted_subdir_name ++ ".extract.stamp.txt"])
      = some c)
    (hdec : decodeUtf8Replace (c.take (4 * info.sha512_hexdigest.length))
      ≠ info.sha512_hexdigest) :
    extractArchive env archiveFile destDir info fs =
      extractProper env archiveFile destDir info fs
        [Event.readFileEv
          (destDir ++ [info.extracted_subdir_name ++ ".extract.stamp.txt"])] := by
  simp only [extractArchive]
  rw [hstamp]
  simp [hdec]

theorem extractArchive_stampMissing (env : Env) (archiveFile destDir : FsPath)
    (info : FileDownloadInfo) (fs : FS)
    (hstamp : fs.getFile (destDir ++ [info.extracted_subdir_name ++ ".extract.stamp.txt"])
      = none) :
    extractArchive env archiveFile destDir info fs =
      extractProper env archiveFile destDir info fs
        [Event.readFileEv
           (destDir ++ [info.extracted_subdir_name ++ ".extract.stamp.txt"]),
         Event.log "Error reading stamp file; re-extracting" []] := by
  simp only [extractArchive]
  rw [hstamp]

theorem extractProper_success (env : Env) (archiveFile destDir : FsPath)
    (info : FileDownloadInfo) (fs : FS) (pre : List Event) (ab : Bytes)
    (members : Archive)
    (hab : fs.getFile archiveFile = some ab)
    (hmem : env.readTar ab = some members)
    (hdir : (extractAllFrom destDir members fs).1.isDir
      (destDir ++ [info.extracted_subdir_name]) = true) :
    extractProper env archiveFile destDir info fs pre =
      ⟨.ok (),
       (extractAllFrom destDir members fs).1.setFile
         (destDir ++ [info.extracted_subdir_name ++ ".extract.stamp.txt"])
         (encodeUtf8 info.sha512_hexdigest),
       (pre ++ [Event.log "Extracting" [], Event.readFileEv archiveFile,
                Event.extractEv archiveFile destDir] ++
          (extractAllFrom destDir members fs).2) ++
         [Event.writeFileEv
           (destDir ++ [info.extracted_subdir_name ++ ".extract.stamp.txt"])
           (encodeUtf8 info.sha512_hexdigest)]⟩ := by
  simp only [extractProper]
  rw [hab]
  dsimp only
  rw [hmem]
  dsimp only
  rw [if_pos hdir]

theorem extractProper_fail (env : Env) (archiveFile destDir : FsPath)
    (info : FileDownloadInfo) (fs : FS) (pre : List Event) (ab : Bytes)
    (members : Archive)
    (hab : fs.getFile archiveFile = some ab)
    (hmem : env.readTar ab = some members)
    (hdir : (extractAllFrom destDir members fs).1.isDir
      (destDir ++ [info.extracted_subdir_name]) = false) :
    extractProper env archiveFile destDir info fs pre =
      ⟨.error (.archiveExtract archiveFile destDir info.extracted_subdir_name),
       (extractAllFrom destDir members fs).1,
       pre ++ [Event.log "Extracting" [], Event.readFileEv archiveFile,
               Event.extractEv archiveFile destDir] ++
         (extractAllFrom destDir members fs).2⟩ := by
  simp only [extractProper]
  rw [hab]
  dsimp only
  rw [hmem]
  dsimp only
  rw [if_neg (by simp [hdir])]

theorem extractAllFrom_getFile_frame (destDir : FsPath) (members : Archive) (fs : FS)
    (p : FsPath) (h : ∀ m ∈ members, memberPath destDir m.name ≠ p) :
    (extractAllFrom destDir members fs).1.getFile p = fs.getFile p := by
  induction members generalizing fs with
  | nil => rfl
  | cons m rest ih =>
      cases m with
      | file nm content =>
          rw [extractAllFrom]
          dsimp only
          rw [ih _ (fun m2 hm2 => h m2 (List.mem_cons_of_mem _ hm2))]
          have hne : p ≠ memberPath destDir nm := by
            intro hEq
            exact h (TarMember.file nm content) (List.mem_cons_self _ _) hEq.symm
          rw [FS.getFile_setFile_ne _ (memberPath destDir nm) p content hne]
          rfl
      | dir nm =>
          rw [extractAllFrom]
          dsimp only
          rw [ih _ (fun m2 hm2 => h m2 (List.mem_cons_of_mem _ hm2))]
          rfl

theorem extractAllFrom_write_events (destDir : FsPath) (members : Archive) (fs : FS)
    (p : FsPath) (c : Bytes)
    (h : Event.writeFileEv p c ∈ (extractAllFrom destDir members fs).2) :
    ∃ m ∈ members, memberPath destDir m.name = p := by
  induction members generalizing fs with
  | nil => cases h
  | cons m rest ih =>
      cases m with
      | file nm content =>
          rw [extractAllFrom] at h
          dsimp only at h
          rw [List.mem_cons] at h
          rcases h with h1 | h2
          · refine ⟨TarMember.file nm content, List.mem_cons_self _ _, ?_⟩
            injection h1 with h1a h1b
            exact h1a.symm
          · obtain ⟨m2, hm2, hp⟩ := ih _ h2
            exact ⟨m2, List.mem_cons_of_mem _ hm2, hp⟩
      | dir nm =>
          rw [extractAllFrom] at h
          dsimp only at h
          rw [List.mem_cons] at h
          rcases h with h1 | h2
          · exact Event.noConfusion h1
          · obtain ⟨m2, hm2, hp⟩ := ih _ h2
            exact ⟨m2, List.mem_cons_of_mem _ hm2, hp⟩

theorem encode_ascii_list_length (l : List Char) (h : ∀ c ∈ l, c.toNat < 128) :
    ((l.map encodeUtf8Char).flatten).length = l.length := by
  induction l with
  | nil => rfl
  | cons c rest ih =>
      have hc : c.toNat < 128 := h c (List.mem_cons_self c rest)
      have henc : encodeUtf8Char c = [c.toNat] := by
        unfold encodeUtf8Char
        rw [if_pos hc]
      rw [List.map_cons, henc, List.flatten_cons, List.singleton_append,
        List.length_cons, ih (fun d hd => h d (List.mem_cons_of_mem c hd))]
      rfl

theorem encodeUtf8_ascii_length (s : String) (h : allAscii s) :
    (encodeUtf8 s).length = s.length := by
  cases s with
  | mk data => exact encode_ascii_list_length data h

theorem decode_take_encode (s : String) (h : allAscii s) :
    decodeUtf8Replace ((encodeUtf8 s).take (4 * s.length)) = s := by
  rw [List.take_of_length_le (by rw [encodeUtf8_ascii_length s h]; omega)]
  cases s with
  | mk data =>
      show String.mk (decodeUtf8ReplaceAux ((data.map encodeUtf8Char).flatten)) = String.mk data
      rw [decodeAux_encode_ascii data h]

theorem string_length_pos_of_ne_empty (s : String) (h : s ≠ "") : 1 ≤ s.length := by
  cases s with
  | mk data =>
      cases data with
      | nil => exact absurd rfl h
      | cons c rest => exact Nat.succ_le_succ (Nat.zero_le _)

theorem decode_take_encode_newline (s : String) (hA : allAscii s) (hne : s ≠ "") :
    decodeUtf8Replace ((encodeUtf8 s ++ [10]).take (4 * s.length)) ≠ s := by
  have hlen : (encodeUtf8 s ++ [10]).length = s.length + 1 := by
    rw [List.length_append, encodeUtf8_ascii_length s hA]
    rfl
  have hpos := string_length_pos_of_ne_empty s hne
  rw [List.take_of_length_le (by omega)]
  cases s with
  | mk data =>
      have hlist : (encodeUtf8 (String.mk data) ++ [10]) =
          (((data ++ ['\n']).map encodeUtf8Char).flatten) := by
        show (data.map encodeUtf8Char).flatten ++ [10] = _
        rw [List.map_append, List.flatten_append]
        rfl
      rw [hlist]
      show String.mk (decodeUtf8ReplaceAux _) ≠ String.mk data
      rw [decodeAux_encode_ascii (data ++ ['\n'])
        (by
          intro c hc
          rw [List.mem_append] at hc
          rcases hc with hc | hc
          · exact hA c hc
          · rw [List.mem_singleton] at hc
            subst hc
            decide)]
      intro hEq
      have hdata : data ++ ['\n'] = data := congrArg String.data hEq
      have := congrArg List.length hdata
      simp at this

theorem createDirIfNotExists_trace_bool (fs : FS) (d : Option FsPath) :
    ((createDirIfNotExists fs d).2.all
      (fun e => !e.isDownloadEv && !e.isExtractEv)) = true := by
  unfold createDirIfNotExists
  match d with
  | none => rfl
  | some q =>
      dsimp only
      split
      · rfl
      · rfl

/-- C7: for an artifact whose file already exists at the derived cache
path (the last path segment of the entry's URL under the download
directory) and whose SHA-512 digest equals the manifest's expected
digest, the downloader returns that path immediately, performs no
network request, and does not modify the cache file (or any file). -/
theorem c7_cache_hit_no_network (env : Env) (downloadDir : FsPath)
    (info : FileDownloadInfo) (fs : FS) (c : Bytes)
    (hfile : fs.getFile (downloadDir ++ [urlFileName info.url]) = some c)
    (hhash : env.hash c = info.sha512_hexdigest) :
    (downloadOne env downloadDir info fs).result =
        .ok (downloadDir ++ [urlFileName info.url])
    ∧ (downloadOne env downloadDir info fs).fs = fs
    ∧ ((downloadOne env downloadDir info fs).trace.all
        (fun e => !e.isDownloadEv && !e.isWriteEv && !e.isDeleteEv)) = true := by
  rw [downloadOne_cacheHit env downloadDir info fs c hfile hhash]
  exact ⟨rfl, rfl, rfl⟩

theorem c7_cache_hit_no_network_witness :
    fsW.getFile (["dl"] ++ [urlFileName binutilsInfo.url]) = some [0]
    ∧ envW.hash [0] = binutilsInfo.sha512_hexdigest
    ∧ ((downloadOne envW ["dl"] binutilsInfo fsW).result =
          .ok (["dl"] ++ [urlFileName binutilsInfo.url])
       ∧ (downloadOne envW ["dl"] binutilsInfo fsW).fs = fsW
       ∧ ((downloadOne envW ["dl"] binutilsInfo fsW).trace.all
           (fun e => !e.isDownloadEv && !e.isWriteEv && !e.isDeleteEv)) = true) :=
  ⟨by decide, by decide,
   c7_cache_hit_no_network envW ["dl"] binutilsInfo fsW [0] (by decide) (by decide)⟩

/-- C5: for an artifact whose cache file exists but whose content does
not hash to the manifest's expected digest, the downloader re-downloads
from the URL and overwrites the cache file in place — no file is ever
deleted — and on success the file at the cache path holds the downloaded
bytes, whose hash is the expected digest. -/
theorem c5_self_healing_cache (env : Env) (downloadDir : FsPath)
    (info : FileDownloadInfo) (fs : FS) (c : Bytes)
    (hfile : fs.getFile (downloadDir ++ [urlFileName info.url]) = some c)
    (hstale : env.hash c ≠ info.sha512_hexdigest)
    (hnet : env.hash (env.network info.url).flatten = info.sha512_hexdigest) :
    (downloadOne env downloadDir info fs).result =
        .ok (downloadDir ++ [urlFileName info.url])
    ∧ Event.downloadEv info.url ∈ (downloadOne env downloadDir info fs).trace
    ∧ ((downloadOne env downloadDir info fs).trace.all (fun e => !e.isDeleteEv)) = true
    ∧ (downloadOne env downloadDir info fs).fs.getFile
        (downloadDir ++ [urlFileName info.url]) = some (env.network info.url).flatten
    ∧ env.hash (env.network info.url).flatten = info.sha512_hexdigest := by
  simp only [downloadOne]
  rw [hfile]
  dsimp only
  rw [if_neg hstale]
  rw [doDownload_netOk env _ info fs _ hnet]
  refine ⟨rfl, ?_, rfl, FS.getFile_setFile_self fs _ _, hnet⟩
  simp

theorem c5_self_healing_cache_witness :
    fsW5.getFile (["dl"] ++ [urlFileName binutilsInfo.url]) = some [7]
    ∧ envW5.hash [7] ≠ binutilsInfo.sha512_hexdigest
    ∧ envW5.hash (envW5.network binutilsInfo.url).flatten = binutilsInfo.sha512_hexdigest
    ∧ ((downloadOne envW5 ["dl"] binutilsInfo fsW5).result =
          .ok (["dl"] ++ [urlFileName binutilsInfo.url])
       ∧ Event.downloadEv binutilsInfo.url ∈ (downloadOne envW5 ["dl"] binutilsInfo fsW5).trace
       ∧ ((downloadOne envW5 ["dl"] binutilsInfo fsW5).trace.all
           (fun e => !e.isDeleteEv)) = true
       ∧ (downloadOne envW5 ["dl"] binutilsInfo fsW5).fs.getFile
           (["dl"] ++ [urlFileName binutilsInfo.url]) = some (envW5.network binutilsInfo.url).flatten
       ∧ envW5.hash (envW5.network binutilsInfo.url).flatten = binutilsInfo.sha512_hexdigest) :=
  ⟨by decide, by decide, by decide,
   c5_self_healing_cache envW5 ["dl"] binutilsInfo fsW5 [7] (by decide) (by decide) (by decide)⟩

theorem createDirIfNotExists_trace_noXD (fs : FS) (d : Option FsPath) :
    ((createDirIfNotExists fs d).2.all
      (fun e => !e.isExtractEv && !e.isDeleteEv)) = true := by
  unfold createDirIfNotExists
  match d with
  | none => rfl
  | some q =>
      dsimp only
      split
      · rfl
      · rfl

/-- C2: when the run reaches a manifest entry whose cache cannot serve
it and whose freshly downloaded bytes hash to a value different from the
entry's expected digest (all earlier entries downloading cleanly), the
run fails with `Sha512MismatchError` carrying the URL, the expected and
the actual digest, the mismatching downloaded file is left on disk at
the cache path, no file is deleted, and no extraction is performed. -/
theorem c2_integrity_error_aborts (env : Env) (b : CrossCompilerBuilder) (fs : FS)
    (pre rest : List (String × FileDownloadInfo)) (kid : String)
    (kinfo : FileDownloadInfo)
    (hsplit : fileDownloadInfos = pre ++ (kid, kinfo) :: rest)
    (hok : ∀ e ∈ pre, env.hash (env.network e.2.url).flatten = e.2.sha512_hexdigest)
    (hnames : ∀ e ∈ pre, urlFileName e.2.url ≠ urlFileName kinfo.url)
    (hcache : ∀ c, fs.getFile (effectiveDownloadDir env b ++ [urlFileName kinfo.url])
        = some c → env.hash c ≠ kinfo.sha512_hexdigest)
    (hnet : env.hash (env.network kinfo.url).flatten ≠ kinfo.sha512_hexdigest) :
    (CrossCompilerBuilder.run env b fs).result =
      .error (.sha512Mismatch kinfo.url kinfo.sha512_hexdigest
        (env.hash (env.network kinfo.url).flatten))
    ∧ (CrossCompilerBuilder.run env b fs).fs.getFile
        (effectiveDownloadDir env b ++ [urlFileName kinfo.url])
        = some (env.network kinfo.url).flatten
    ∧ ((CrossCompilerBuilder.run env b fs).trace.all
        (fun e => !e.isExtractEv && !e.isDeleteEv)) = true := by
  simp only [CrossCompilerBuilder.run]
  rw [Outcome.bind_ok _ _ () rfl]
  dsimp only
  rw [hsplit]
  have hcache2 : ∀ c,
      (createDirIfNotExists (createDirIfNotExists fs b.build_dir).1 b.download_dir).1.getFile
        (effectiveDownloadDir env b ++ [urlFileName kinfo.url]) = some c →
      env.hash c ≠ kinfo.sha512_hexdigest := by
    intro c hc
    rw [createDirIfNotExists_getFile, createDirIfNotExists_getFile] at hc
    exact hcache c hc
  obtain ⟨lres, lfs, ltr⟩ := downloadLoop_mismatch env (effectiveDownloadDir env b)
    pre rest kid kinfo
    (createDirIfNotExists (createDirIfNotExists fs b.build_dir).1 b.download_dir).1
    hok hnames hcache2 hnet
  rw [Outcome.bind_error _ _ _ lres]
  refine ⟨rfl, lfs, ?_⟩
  simp only [List.all_cons, List.all_append]
  rw [ltr, createDirIfNotExists_trace_noXD, createDirIfNotExists_trace_noXD]
  rfl

theorem c2_integrity_error_aborts_witness :
    fileDownloadInfos = [] ++ ("binutils", binutilsInfo) ::
      [("gcc", gccInfo), ("mpfr", mpfrInfo), ("gmp", gmpInfo), ("mpc", mpcInfo)]
    ∧ (∀ e ∈ ([] : List (String × FileDownloadInfo)),
        envW.hash (envW.network e.2.url).flatten = e.2.sha512_hexdigest)
    ∧ (∀ e ∈ ([] : List (String × FileDownloadInfo)),
        urlFileName e.2.url ≠ urlFileName binutilsInfo.url)
    ∧ (∀ c, fsEmpty.getFile (effectiveDownloadDir envW builderW ++
          [urlFileName binutilsInfo.url]) = some c →
        envW.hash c ≠ binutilsInfo.sha512_hexdigest)
    ∧ envW.hash (envW.network binutilsInfo.url).flatten ≠ binutilsInfo.sha512_hexdigest
    ∧ ((CrossCompilerBuilder.run envW builderW fsEmpty).result =
        .error (.sha512Mismatch binutilsInfo.url binutilsInfo.sha512_hexdigest
          (envW.hash (envW.network binutilsInfo.url).flatten))
       ∧ (CrossCompilerBuilder.run envW builderW fsEmpty).fs.getFile
           (effectiveDownloadDir envW builderW ++ [urlFileName binutilsInfo.url])
           = some (envW.network binutilsInfo.url).flatten
       ∧ ((CrossCompilerBuilder.run envW builderW fsEmpty).trace.all
           (fun e => !e.isExtractEv && !e.isDeleteEv)) = true) :=
  ⟨rfl, fun e he => absurd he (List.not_mem_nil e),
   fun e he => absurd he (List.not_mem_nil e),
   fun c hc => Option.noConfusion hc,
   by decide,
   c2_integrity_error_aborts envW builderW fsEmpty []
     [("gcc", gccInfo), ("mpfr", mpfrInfo), ("gmp", gmpInfo), ("mpc", mpcInfo)]
     "binutils" binutilsInfo rfl
     (fun e he => absurd he (List.not_mem_nil e))
     (fun e he => absurd he (List.not_mem_nil e))
     (fun c hc => Option.noConfusion hc)
     (by decide)⟩

theorem cacheHit_trace_all (entries : List (String × FileDownloadInfo)) (ddir : FsPath) :
    ((entries.flatMap fun e =>
        [Event.readFileEv (ddir ++ [urlFileName e.2.url]),
         Event.log "skipping download" [e.2.url]]).all
      (fun e => !e.isDownloadEv && !e.isExtractEv)) = true := by
  rw [List.all_eq_true]
  intro x hx
  rw [List.mem_flatMap] at hx
  obtain ⟨e, _, hxe⟩ := hx
  rw [List.mem_cons, List.mem_singleton] at hxe
  rcases hxe with rfl | rfl
  · rfl
  · rfl

set_option maxRecDepth 4096 in
theorem binutils_digest_ascii : allAscii binutilsInfo.sha512_hexdigest := by
  unfold allAscii
  decide

/-- C1: in a state left by a successful prior run — every cache file
present with a digest matching its manifest entry, and the binutils
extraction marker holding the UTF-8 encoding of the current expected
digest — a second run succeeds while performing zero network downloads
and zero extractions: every artifact is served from cache and the
extractor returns early on the marker. -/
theorem c1_idempotent_second_run (env : Env) (b : CrossCompilerBuilder) (fs : FS)
    (hcache : ∀ e ∈ fileDownloadInfos, ∃ c,
        fs.getFile (effectiveDownloadDir env b ++ [urlFileName e.2.url]) = some c ∧
        env.hash c = e.2.sha512_hexdigest)
    (hstamp : fs.getFile (effectiveBuildDir env b ++
        [binutilsInfo.extracted_subdir_name ++ ".extract.stamp.txt"]) =
      some (encodeUtf8 binutilsInfo.sha512_hexdigest)) :
    (CrossCompilerBuilder.run env b fs).result = .ok ()
    ∧ ((CrossCompilerBuilder.run env b fs).trace.all
        (fun e => !e.isDownloadEv && !e.isExtractEv)) = true := by
  simp only [CrossCompilerBuilder.run]
  rw [Outcome.bind_ok _ _ () rfl]
  dsimp only
  have hget : ∀ p,
      (createDirIfNotExists (createDirIfNotExists fs b.build_dir).1 b.download_dir).1.getFile p
        = fs.getFile p := by
    intro p
    rw [createDirIfNotExists_getFile, createDirIfNotExists_getFile]
  have hcache2 : ∀ e ∈ fileDownloadInfos, ∃ c,
      (createDirIfNotExists (createDirIfNotExists fs b.build_dir).1 b.download_dir).1.getFile
        (effectiveDownloadDir env b ++ [urlFileName e.2.url]) = some c ∧
      env.hash c = e.2.sha512_hexdigest := by
    intro e he
    obtain ⟨c, hc1, hc2⟩ := hcache e he
    exact ⟨c, (hget _).trans hc1, hc2⟩
  rw [downloadLoop_allCacheHit env (effectiveDownloadDir env b) fileDownloadInfos _ hcache2]
  rw [Outcome.bind_ok _ _ _ rfl]
  dsimp only
  simp only [buildBinutils, fileDownloadInfos, List.map_cons, List.map_nil,
    List.lookup_cons_self]
  rw [extractArchive_stampHit env _ (effectiveBuildDir env b) binutilsInfo _
    (encodeUtf8 binutilsInfo.sha512_hexdigest) ((hget _).trans hstamp)
    (decode_take_encode binutilsInfo.sha512_hexdigest binutils_digest_ascii)]
  refine ⟨rfl, ?_⟩
  simp only [List.all_cons, List.all_append]
  rw [createDirIfNotExists_trace_bool, createDirIfNotExists_trace_bool]
  have := cacheHit_trace_all fileDownloadInfos (effectiveDownloadDir env b)
  simp only [fileDownloadInfos] at this
  rw [this]
  rfl

set_option maxRecDepth 8192 in
theorem c1_idempotent_second_run_witness :
    (∀ e ∈ fileDownloadInfos, ∃ c,
        fsW1.getFile (effectiveDownloadDir envW builderW ++ [urlFileName e.2.url])
          = some c ∧
        envW.hash c = e.2.sha512_hexdigest)
    ∧ fsW1.getFile (effectiveBuildDir envW builderW ++
        [binutilsInfo.extracted_subdir_name ++ ".extract.stamp.txt"]) =
      some (encodeUtf8 binutilsInfo.sha512_hexdigest)
    ∧ ((CrossCompilerBuilder.run envW builderW fsW1).result = .ok ()
       ∧ ((CrossCompilerBuilder.run envW builderW fsW1).trace.all
           (fun e => !e.isDownloadEv && !e.isExtractEv)) = true) := by
  have hcache : ∀ e ∈ fileDownloadInfos, ∃ c,
      fsW1.getFile (effectiveDownloadDir envW builderW ++ [urlFileName e.2.url])
        = some c ∧ envW.hash c = e.2.sha512_hexdigest := by
    intro e he
    simp only [fileDownloadInfos, List.mem_cons, List.not_mem_nil, or_false] at he
    rcases he with rfl | rfl | rfl | rfl | rfl
    · exact ⟨[0], by decide, by decide⟩
    · exact ⟨[1], by decide, by decide⟩
    · exact ⟨[2], by decide, by decide⟩
    · exact ⟨[3], by decide, by decide⟩
    · exact ⟨[4], by decide, by decide⟩
  have hstamp : fsW1.getFile (effectiveBuildDir envW builderW ++
      [binutilsInfo.extracted_subdir_name ++ ".extract.stamp.txt"]) =
      some (encodeUtf8 binutilsInfo.sha512_hexdigest) := by
    decide
  exact ⟨hcache, hstamp, c1_idempotent_second_run envW builderW fsW1 hcache hstamp⟩

/-- C4: when the stamp check does not hit and, after unpacking the
archive, `destDir/extracted_subdir_name` does not exist as a directory,
extraction fails with `ArchiveExtractError` and the marker file is not
written: no write event targets the marker path and the marker's content
is unchanged.  (The archive is assumed not to contain a member that
itself lands on the marker path.) -/
theorem c4_completeness_marker_atomicity (env : Env) (archiveFile destDir : FsPath)
    (info : FileDownloadInfo) (fs : FS) (ab : Bytes) (members : Archive)
    (hnoskip : ∀ c, fs.getFile
        (destDir ++ [info.extracted_subdir_name ++ ".extract.stamp.txt"]) = some c →
      decodeUtf8Replace (c.take (4 * info.sha512_hexdigest.length))
        ≠ info.sha512_hexdigest)
    (hab : fs.getFile archiveFile = some ab)
    (hmem : env.readTar ab = some members)
    (hnostamp : ∀ m ∈ members, memberPath destDir m.name ≠
        destDir ++ [info.extracted_subdir_name ++ ".extract.stamp.txt"])
    (hdir : (extractAllFrom destDir members fs).1.isDir
        (destDir ++ [info.extracted_subdir_name]) = false) :
    (extractArchive env archiveFile destDir info fs).result =
      .error (.archiveExtract archiveFile destDir info.extracted_subdir_name)
    ∧ (∀ c, Event.writeFileEv
        (destDir ++ [info.extracted_subdir_name ++ ".extract.stamp.txt"]) c ∉
        (extractArchive env archiveFile destDir info fs).trace)
    ∧ (extractArchive env archiveFile destDir info fs).fs.getFile
        (destDir ++ [info.extracted_subdir_name ++ ".extract.stamp.txt"]) =
      fs.getFile (destDir ++ [info.extracted_subdir_name ++ ".extract.stamp.txt"]) := by
  have hmain : ∀ pre : List Event,
      (∀ e ∈ pre, e.isWriteEv = false) →
      (extractProper env archiveFile destDir info fs pre).result =
        .error (.archiveExtract archiveFile destDir info.extracted_subdir_name)
      ∧ (∀ c, Event.writeFileEv
          (destDir ++ [info.extracted_subdir_name ++ ".extract.stamp.txt"]) c ∉
          (extractProper env archiveFile destDir info fs pre).trace)
      ∧ (extractProper env archiveFile destDir info fs pre).fs.getFile
          (destDir ++ [info.extracted_subdir_name ++ ".extract.stamp.txt"]) =
        fs.getFile (destDir ++ [info.extracted_subdir_name ++ ".extract.stamp.txt"]) := by
    intro pre hpre
    rw [extractProper_fail env archiveFile destDir info fs pre ab members hab hmem hdir]
    refine ⟨rfl, ?_, extractAllFrom_getFile_frame destDir members fs _ hnostamp⟩
    intro c hc
    rw [List.mem_append, List.mem_append] at hc
    rcases hc with (hc | hc) | hc
    · have := hpre _ hc
      simp [Event.isWriteEv] at this
    · rw [List.mem_cons, List.mem_cons, List.mem_singleton] at hc
      rcases hc with hc | hc | hc
      · exact Event.noConfusion hc
      · exact Event.noConfusion hc
      · exact Event.noConfusion hc
    · obtain ⟨m, hm, hp⟩ := extractAllFrom_write_events destDir members fs _ c hc
      exact hnostamp m hm hp
  simp only [extractArchive]
  cases hstamp : fs.getFile
      (destDir ++ [info.extracted_subdir_name ++ ".extract.stamp.txt"]) with
  | some c =>
      dsimp only
      rw [if_neg (hnoskip c hstamp)]
      rw [← hstamp]
      exact hmain
        [Event.readFileEv (destDir ++ [info.extracted_subdir_name ++ ".extract.stamp.txt"])]
        (by
          intro e he
          rw [List.mem_singleton] at he
          subst he
          rfl)
  | none =>
      dsimp only
      rw [← hstamp]
      exact hmain
        [Event.readFileEv (destDir ++ [info.extracted_subdir_name ++ ".extract.stamp.txt"]),
         Event.log "Error reading stamp file; re-extracting" []]
        (by
          intro e he
          rw [List.mem_cons, List.mem_singleton] at he
          rcases he with rfl | rfl
          · rfl
          · rfl)

theorem c4_completeness_marker_atomicity_witness :
    (∀ c, fsW4.getFile
        (["bld"] ++ [binutilsInfo.extracted_subdir_name ++ ".extract.stamp.txt"]) = some c →
      decodeUtf8Replace (c.take (4 * binutilsInfo.sha512_hexdigest.length))
        ≠ binutilsInfo.sha512_hexdigest)
    ∧ fsW4.getFile ["dl", "binutils-2.41.tar.bz2"] = some [0]
    ∧ envW4.readTar [0] = some [TarMember.file "README" [1]]
    ∧ (∀ m ∈ [TarMember.file "README" [1]], memberPath ["bld"] m.name ≠
        ["bld"] ++ [binutilsInfo.extracted_subdir_name ++ ".extract.stamp.txt"])
    ∧ (extractAllFrom ["bld"] [TarMember.file "README" [1]] fsW4).1.isDir
        (["bld"] ++ [binutilsInfo.extracted_subdir_name]) = false
    ∧ ((extractArchive envW4 ["dl", "binutils-2.41.tar.bz2"] ["bld"] binutilsInfo fsW4).result =
        .error (.archiveExtract ["dl", "binutils-2.41.tar.bz2"] ["bld"]
          binutilsInfo.extracted_subdir_name)
       ∧ (∀ c, Event.writeFileEv
           (["bld"] ++ [binutilsInfo.extracted_subdir_name ++ ".extract.stamp.txt"]) c ∉
           (extractArchive envW4 ["dl", "binutils-2.41.tar.bz2"] ["bld"] binutilsInfo fsW4).trace)
       ∧ (extractArchive envW4 ["dl", "binutils-2.41.tar.bz2"] ["bld"] binutilsInfo fsW4).fs.getFile
           (["bld"] ++ [binutilsInfo.extracted_subdir_name ++ ".extract.stamp.txt"]) =
         fsW4.getFile
           (["bld"] ++ [binutilsInfo.extracted_subdir_name ++ ".extract.stamp.txt"])) := by
  have h1 : ∀ c, fsW4.getFile
      (["bld"] ++ [binutilsInfo.extracted_subdir_name ++ ".extract.stamp.txt"]) = some c →
      decodeUtf8Replace (c.take (4 * binutilsInfo.sha512_hexdigest.length))
        ≠ binutilsInfo.sha512_hexdigest := by
    intro c hc
    rw [show fsW4.getFile
      (["bld"] ++ [binutilsInfo.extracted_subdir_name ++ ".extract.stamp.txt"]) = none
      from by decide] at hc
    exact Option.noConfusion hc
  have h4 : ∀ m ∈ [TarMember.file "README" [1]], memberPath ["bld"] m.name ≠
      ["bld"] ++ [binutilsInfo.extracted_subdir_name ++ ".extract.stamp.txt"] := by
    intro m hm
    rw [List.mem_singleton] at hm
    subst hm
    decide
  exact ⟨h1, by decide, rfl, h4, by decide,
    c4_completeness_marker_atomicity envW4 ["dl", "binutils-2.41.tar.bz2"] ["bld"]
      binutilsInfo fsW4 [0] [TarMember.file "README" [1]]
      h1 (by decide) rfl h4 (by decide)⟩

/-- C6: when the marker file exists but its (truncated, decoded) content
differs from the current manifest entry's expected digest, the run does
a full re-extraction of the archive into `destDir` and, on success,
rewrites the marker so that its content is the UTF-8 encoding of the new
expected digest. -/
theorem c6_stale_marker_invalidation (env : Env) (archiveFile destDir : FsPath)
    (info : FileDownloadInfo) (fs : FS) (c ab : Bytes) (members : Archive)
    (hstamp : fs.getFile (destDir ++ [info.extracted_subdir_name ++ ".extract.stamp.txt"])
      = some c)
    (hstale : decodeUtf8Replace (c.take (4 * info.sha512_hexdigest.length))
      ≠ info.sha512_hexdigest)
    (hab : fs.getFile archiveFile = some ab)
    (hmem : env.readTar ab = some members)
    (hdir : (extractAllFrom destDir members fs).1.isDir
      (destDir ++ [info.extracted_subdir_name]) = true) :
    (extractArchive env archiveFile destDir info fs).result = .ok ()
    ∧ Event.extractEv archiveFile destDir ∈
        (extractArchive env archiveFile destDir info fs).trace
    ∧ (extractArchive env archiveFile destDir info fs).fs.getFile
        (destDir ++ [info.extracted_subdir_name ++ ".extract.stamp.txt"]) =
      some (encodeUtf8 info.sha512_hexdigest) := by
  rw [extractArchive_stampStale env archiveFile destDir info fs c hstamp hstale]
  rw [extractProper_success env archiveFile destDir info fs _ ab members hab hmem hdir]
  refine ⟨rfl, ?_, FS.getFile_setFile_self _ _ _⟩
  simp

set_option maxRecDepth 8192 in
theorem c6_stale_marker_invalidation_witness :
    fsW6.getFile (["bld"] ++ [binutilsInfo.extracted_subdir_name ++ ".extract.stamp.txt"])
      = some [88]
    ∧ decodeUtf8Replace (List.take (4 * binutilsInfo.sha512_hexdigest.length) [88])
        ≠ binutilsInfo.sha512_hexdigest
    ∧ fsW6.getFile ["dl", "binutils-2.41.tar.bz2"] = some [0]
    ∧ envW6.readTar [0] = some [TarMember.dir "binutils-2.41"]
    ∧ (extractAllFrom ["bld"] [TarMember.dir "binutils-2.41"] fsW6).1.isDir
        (["bld"] ++ [binutilsInfo.extracted_subdir_name]) = true
    ∧ ((extractArchive envW6 ["dl", "binutils-2.41.tar.bz2"] ["bld"] binutilsInfo fsW6).result
        = .ok ()
       ∧ Event.extractEv ["dl", "binutils-2.41.tar.bz2"] ["bld"] ∈
           (extractArchive envW6 ["dl", "binutils-2.41.tar.bz2"] ["bld"] binutilsInfo fsW6).trace
       ∧ (extractArchive envW6 ["dl", "binutils-2.41.tar.bz2"] ["bld"] binutilsInfo fsW6).fs.getFile
           (["bld"] ++ [binutilsInfo.extracted_subdir_name ++ ".extract.stamp.txt"]) =
         some (encodeUtf8 binutilsInfo.sha512_hexdigest)) :=
  ⟨by decide, by decide, by decide, rfl, by decide,
   c6_stale_marker_invalidation envW6 ["dl", "binutils-2.41.tar.bz2"] ["bld"]
     binutilsInfo fsW6 [88] [0] [TarMember.dir "binutils-2.41"]
     (by decide) (by decide) (by decide) rfl (by decide)⟩

/-- C9: the marker is accepted only when its content, truncated to four
times the digest length and decoded with replacement, equals the
expected digest exactly: a marker holding the correct digest followed by
a trailing newline byte is treated as stale and forces a full
re-extraction (after which the marker is rewritten without the trailing
byte). -/
theorem c9_marker_byte_exact (env : Env) (archiveFile destDir : FsPath)
    (info : FileDownloadInfo) (fs : FS) (ab : Bytes) (members : Archive)
    (hA : allAscii info.sha512_hexdigest)
    (hne : info.sha512_hexdigest ≠ "")
    (hstamp : fs.getFile (destDir ++ [info.extracted_subdir_name ++ ".extract.stamp.txt"])
      = some (encodeUtf8 info.sha512_hexdigest ++ [10]))
    (hab : fs.getFile archiveFile = some ab)
    (hmem : env.readTar ab = some members)
    (hdir : (extractAllFrom destDir members fs).1.isDir
      (destDir ++ [info.extracted_subdir_name]) = true) :
    (extractArchive env archiveFile destDir info fs).result = .ok ()
    ∧ Event.extractEv archiveFile destDir ∈
        (extractArchive env archiveFile destDir info fs).trace
    ∧ (extractArchive env archiveFile destDir info fs).fs.getFile
        (destDir ++ [info.extracted_subdir_name ++ ".extract.stamp.txt"]) =
      some (encodeUtf8 info.sha512_hexdigest) := by
  rw [extractArchive_stampStale env archiveFile destDir info fs _ hstamp
    (decode_take_encode_newline info.sha512_hexdigest hA hne)]
  rw [extractProper_success env archiveFile destDir info fs _ ab members hab hmem hdir]
  refine ⟨rfl, ?_, FS.getFile_setFile_self _ _ _⟩
  simp

set_option maxRecDepth 8192 in
theorem c9_marker_byte_exact_witness :
    allAscii binutilsInfo.sha512_hexdigest
    ∧ binutilsInfo.sha512_hexdigest ≠ ""
    ∧ fsW9.getFile (["bld"] ++ [binutilsInfo.extracted_subdir_name ++ ".extract.stamp.txt"])
        = some (encodeUtf8 binutilsInfo.sha512_hexdigest ++ [10])
    ∧ fsW9.getFile ["dl", "binutils-2.41.tar.bz2"] = some [0]
    ∧ envW6.readTar [0] = some [TarMember.dir "binutils-2.41"]
    ∧ (extractAllFrom ["bld"] [TarMember.dir "binutils-2.41"] fsW9).1.isDir
        (["bld"] ++ [binutilsInfo.extracted_subdir_name]) = true
    ∧ ((extractArchive envW6 ["dl", "binutils-2.41.tar.bz2"] ["bld"] binutilsInfo fsW9).result
        = .ok ()
       ∧ Event.extractEv ["dl", "binutils-2.41.tar.bz2"] ["bld"] ∈
           (extractArchive envW6 ["dl", "binutils-2.41.tar.bz2"] ["bld"] binutilsInfo fsW9).trace
       ∧ (extractArchive envW6 ["dl", "binutils-2.41.tar.bz2"] ["bld"] binutilsInfo fsW9).fs.getFile
           (["bld"] ++ [binutilsInfo.extracted_subdir_name ++ ".extract.stamp.txt"]) =
         some (encodeUtf8 binutilsInfo.sha512_hexdigest)) :=
  ⟨binutils_digest_ascii, by decide, by decide, by decide, rfl, by decide,
   c9_marker_byte_exact envW6 ["dl", "binutils-2.41.tar.bz2"] ["bld"]
     binutilsInfo fsW9 [0] [TarMember.dir "binutils-2.41"]
     binutils_digest_ascii (by decide) (by decide) (by decide) rfl (by decide)⟩

set_option maxRecDepth 8192 in
/-- C3 (code bug): extraction performs no path containment.  The
script's `extractall(dest_dir)` call carries no `filter` argument (its
own TODO comment acknowledges the missing `filter="data"`), so a member
named `../evil.txt` is written to `home/evil.txt`, outside the
destination directory `home/bld` — and the run still completes
successfully. -/
theorem c3_path_traversal_escape :
    Event.writeFileEv ["home", "evil.txt"] [7] ∈
      (extractArchive envW3 ["home", "dl", "binutils-2.41.tar.bz2"] ["home", "bld"]
        binutilsInfo fsW3).trace
    ∧ (extractArchive envW3 ["home", "dl", "binutils-2.41.tar.bz2"] ["home", "bld"]
        binutilsInfo fsW3).fs.getFile ["home", "evil.txt"] = some [7]
    ∧ (extractArchive envW3 ["home", "dl", "binutils-2.41.tar.bz2"] ["home", "bld"]
        binutilsInfo fsW3).result = .ok ()
    ∧ (["home", "bld"].isPrefixOf ["home", "evil.txt"]) = false := by
  refine ⟨by decide, by decide, by decide, by decide⟩

/-- C8 counterexample: the computed digest equals the expected digest up
to ASCII letter case, yet the cache is NOT accepted (the file is
re-downloaded) and the run fails with a digest mismatch — the script's
comparisons at lines 105 and 143 are plain case-sensitive string
equality, not case-insensitive. -/
theorem c8_case_insensitive_counterexample :
    asciiLower (envW8.hash [5]) = asciiLower infoU.sha512_hexdigest
    ∧ envW8.hash [5] ≠ infoU.sha512_hexdigest
    ∧ Event.downloadEv infoU.url ∈ (downloadOne envW8 ["dl"] infoU fsW8).trace
    ∧ (downloadOne envW8 ["dl"] infoU fsW8).result =
        .error (.sha512Mismatch infoU.url "AB" "ab") := by
  refine ⟨by decide, by decide, by decide, by decide⟩

/-- C8 amended: the digest comparison is exact, case-sensitive string
equality.  A cached file whose computed digest differs from the expected
digest — even when the two agree up to ASCII letter case — is
re-downloaded, and a fresh download whose digest differs from the
expected digest — again even when equal up to case — raises
`Sha512MismatchError`. -/
theorem c8_digest_comparison_case_sensitive (env : Env) (downloadDir : FsPath)
    (info : FileDownloadInfo) (fs : FS) (c : Bytes)
    (hfile : fs.getFile (downloadDir ++ [urlFileName info.url]) = some c)
    (hcase : asciiLower (env.hash c) = asciiLower info.sha512_hexdigest)
    (hne : env.hash c ≠ info.sha512_hexdigest)
    (hncase : asciiLower (env.hash (env.network info.url).flatten)
      = asciiLower info.sha512_hexdigest)
    (hnne : env.hash (env.network info.url).flatten ≠ info.sha512_hexdigest) :
    Event.downloadEv info.url ∈ (downloadOne env downloadDir info fs).trace
    ∧ (downloadOne env downloadDir info fs).result =
        .error (.sha512Mismatch info.url info.sha512_hexdigest
          (env.hash (env.network info.url).flatten)) := by
  simp only [downloadOne]
  rw [hfile]
  dsimp only
  rw [if_neg hne]
  rw [doDownload_mismatch env _ info fs _ hnne]
  refine ⟨?_, rfl⟩
  simp

theorem c8_digest_comparison_case_sensitive_witness :
    fsW8.getFile (["dl"] ++ [urlFileName infoU.url]) = some [5]
    ∧ asciiLower (envW8.hash [5]) = asciiLower infoU.sha512_hexdigest
    ∧ envW8.hash [5] ≠ infoU.sha512_hexdigest
    ∧ asciiLower (envW8.hash (envW8.network infoU.url).flatten)
        = asciiLower infoU.sha512_hexdigest
    ∧ envW8.hash (envW8.network infoU.url).flatten ≠ infoU.sha512_hexdigest
    ∧ (Event.downloadEv infoU.url ∈ (downloadOne envW8 ["dl"] infoU fsW8).trace
       ∧ (downloadOne envW8 ["dl"] infoU fsW8).result =
           .error (.sha512Mismatch infoU.url infoU.sha512_hexdigest
             (envW8.hash (envW8.network infoU.url).flatten))) :=
  ⟨by decide, by decide, by decide, by decide, by decide,
   c8_digest_comparison_case_sensitive envW8 ["dl"] infoU fsW8 [5]
     (by decide) (by decide) (by decide) (by decide) (by decide)⟩

/-- C10: `dest_dir` is only interpolated into a log message.  Two runs
whose configurations agree on `build_dir` and `download_dir` but differ
arbitrarily in `dest_dir` perform exactly the same file-system and
network events (only log lines can differ), end in the same filesystem
state, and return the same result — so no file or directory access ever
depends on `dest_dir`. -/
theorem c10_dest_dir_only_logged (env : Env) (fs : FS) (b1 b2 : CrossCompilerBuilder)
    (hbuild : b1.build_dir = b2.build_dir)
    (hdl : b1.download_dir = b2.download_dir) :
    ((CrossCompilerBuilder.run env b1 fs).trace.filter (fun e => !e.isLogEv) =
      (CrossCompilerBuilder.run env b2 fs).trace.filter (fun e => !e.isLogEv))
    ∧ (CrossCompilerBuilder.run env b1 fs).fs = (CrossCompilerBuilder.run env b2 fs).fs
    ∧ (CrossCompilerBuilder.run env b1 fs).result =
        (CrossCompilerBuilder.run env b2 fs).result := by
  obtain ⟨d1, bd1, dd1⟩ := b1
  obtain ⟨d2, bd2, dd2⟩ := b2
  subst hbuild
  subst hdl
  have hbb : buildBinutils env ⟨d1, bd1, dd1⟩ = buildBinutils env ⟨d2, bd1, dd1⟩ := by
    funext downloaded fs3
    simp only [buildBinutils, effectiveBuildDir]
  have hdd : effectiveDownloadDir env ⟨d1, bd1, dd1⟩ =
      effectiveDownloadDir env ⟨d2, bd1, dd1⟩ := rfl
  simp only [CrossCompilerBuilder.run]
  rw [hbb, hdd]
  refine ⟨?_, rfl, rfl⟩
  rw [Outcome.bind_ok _ _ () rfl, Outcome.bind_ok _ _ () rfl]
  simp [List.filter_append, List.filter_cons, Event.isLogEv]

theorem c10_dest_dir_only_logged_witness :
    (⟨["destA"], some ["bld"], some ["dl"]⟩ : CrossCompilerBuilder).build_dir =
      (⟨["destB"], some ["bld"], some ["dl"]⟩ : CrossCompilerBuilder).build_dir
    ∧ (⟨["destA"], some ["bld"], some ["dl"]⟩ : CrossCompilerBuilder).download_dir =
      (⟨["destB"], some ["bld"], some ["dl"]⟩ : CrossCompilerBuilder).download_dir
    ∧ (((CrossCompilerBuilder.run envW ⟨["destA"], some ["bld"], some ["dl"]⟩ fsEmpty).trace.filter
          (fun e => !e.isLogEv) =
        (CrossCompilerBuilder.run envW ⟨["destB"], some ["bld"], some ["dl"]⟩ fsEmpty).trace.filter
          (fun e => !e.isLogEv))
       ∧ (CrossCompilerBuilder.run envW ⟨["destA"], some ["bld"], some ["dl"]⟩ fsEmpty).fs =
           (CrossCompilerBuilder.run envW ⟨["destB"], some ["bld"], some ["dl"]⟩ fsEmpty).fs
       ∧ (CrossCompilerBuilder.run envW ⟨["destA"], some ["bld"], some ["dl"]⟩ fsEmpty).result =
           (CrossCompilerBuilder.run envW ⟨["destB"], some ["bld"], some ["dl"]⟩ fsEmpty).result) :=
  ⟨rfl, rfl,
   c10_dest_dir_only_logged envW fsEmpty
     ⟨["destA"], some ["bld"], some ["dl"]⟩
     ⟨["destB"], some ["bld"], some ["dl"]⟩ rfl rfl⟩
